import Mathlib

/-!
Shallow embedding of the span/offset model of `snorkel/models/context.py`
(classes `TemporarySpan` and `Span`, plus the parts of `Sentence` and
`Context` their methods read), together with theorems settling the claims
about it.

Modelling conventions:
* Python `int` is Lean `Int`; Python `list` is Lean `List`; a Python value
  that may be `None` is an `Option`.
* Python list/string indexing and slicing (with their negative-index and
  clamping semantics) are modelled explicitly by `pyGet`, `pyBound` and
  `pySlice`.
* A `Sentence` (the only `Context` subtype the span methods use) carries an
  `objId : Nat` standing for Python object identity: `Context.__eq__` is
  `self is other`, so two sentence references are `==` exactly when their
  `objId`s coincide. Persistence-only columns (document id, position) are
  irrelevant to every span method and are omitted; all token-aligned
  attribute columns are kept, including the int-valued `dep_parents`, on
  which `sep.join` raises `TypeError`.
* `TemporarySpan` and its subclass `Span` share every method body; they
  differ only in `_get_instance` (which class a slice instantiates) and in
  the persisted class carrying an identity column. They are embedded as a
  single structure `PySpan` with a class tag `cls : SpanClass`; dynamic
  dispatch of `_get_instance` reads the tag. The structure is parametric in
  the opaque metadata payload type `μ`.
* Raising an exception is modelled as `Except.error` / `Option.none`.
-/

/-- Python object tag for the two span classes: `TemporarySpan` (transient)
and its subclass `Span` (persisted form). -/
inductive SpanClass : Type
  | temporary
  | span
deriving DecidableEq, Repr

/-- The fields of `Sentence` that span methods read, plus `objId`, which
models Python object identity (`Context.__eq__` is `self is other`).
`text` is the raw character sequence of the sentence. -/
structure Sentence : Type where
  objId : Nat
  text : List Char
  words : List String
  char_offsets : List Int
  lemmas : List String
  poses : List String
  dep_parents : List Int
  dep_labels : List String
deriving DecidableEq, Repr

/-- Model of `Context.__eq__` (`self is other`) between two sentence
references: Python reference identity, i.e. equality of object identities. -/
def Sentence.isSame (a b : Sentence) : Bool :=
  a.objId = b.objId

/-- Single structure embedding `TemporarySpan` and its subclass `Span`:
`cls` is the Python class tag, `id` the identity column of the persisted
class (`none` until the persistence layer assigns it; always `none` on a
`TemporarySpan`, whose class has no such attribute set), `meta` the opaque
metadata payload. -/
structure PySpan (μ : Type) : Type where
  cls : SpanClass
  context : Sentence
  char_start : Int
  char_end : Int
  meta : Option μ
  id : Option Int
deriving DecidableEq, Repr

/-- Python list indexing `l[i]`: nonnegative indices from the front,
negative indices wrap from the end, out-of-range raises (`none`). -/
def pyGet {α : Type} (l : List α) (i : Int) : Option α :=
  if 0 ≤ i then l.get? i.toNat
  else if (l.length : Int) + i < 0 then none
  else l.get? ((l.length : Int) + i).toNat

/-- Python slice-bound normalization for a length-`n` sequence: a negative
bound counts from the end (clamped below at 0), a nonnegative bound is
clamped above at `n`. -/
def pyBound (n : Nat) (i : Int) : Nat :=
  if i < 0 then ((n : Int) + i).toNat else min i.toNat n

/-- Python slice `l[a:b]` with the default step. -/
def pySlice {α : Type} (l : List α) (a b : Int) : List α :=
  (l.drop (pyBound l.length a)).take (pyBound l.length b - pyBound l.length a)

/-- A token-aligned attribute sequence of a `Sentence`: the string-valued
columns hold strings, `dep_parents` holds ints. -/
inductive AttrSeq : Type
  | strSeq (xs : List String)
  | intSeq (xs : List Int)
deriving DecidableEq, Repr

/-- Length of an attribute sequence. -/
def AttrSeq.length : AttrSeq → Nat
  | .strSeq xs => xs.length
  | .intSeq xs => xs.length

/-- Python slicing of an attribute sequence (slicing a Python list works
the same for any element type). -/
def AttrSeq.slice : AttrSeq → Int → Int → AttrSeq
  | .strSeq xs, a, b => .strSeq (pySlice xs a b)
  | .intSeq xs, a, b => .intSeq (pySlice xs a b)

/-- Model of `self.context.__getattribute__(a)` over the token-aligned
attributes of `Sentence`; `none` models the `AttributeError` an unknown
name raises. -/
def Sentence.getAttr (s : Sentence) : String → Option AttrSeq
  | "words" => some (AttrSeq.strSeq s.words)
  | "lemmas" => some (AttrSeq.strSeq s.lemmas)
  | "poses" => some (AttrSeq.strSeq s.poses)
  | "dep_parents" => some (AttrSeq.intSeq s.dep_parents)
  | "dep_labels" => some (AttrSeq.strSeq s.dep_labels)
  | _ => none

/-- The loop of `TemporarySpan.char_to_word_index`: scan the offsets with
`enumerate`, returning `i` on an exact match, `i - 1` at the first offset
exceeding `ci`, the final index when the loop falls through, and `None`
(the initial value of `i`) when the sequence is empty. -/
def charToWordGo (ci : Int) : Int → List Int → Option Int
  | _, [] => none
  | i, co :: rest =>
    if ci = co then some i
    else if ci < co then some (i - 1)
    else
      match rest with
      | [] => some i
      | _ :: _ => charToWordGo ci (i + 1) rest

namespace PySpan

variable {μ : Type}

/-- Method `char_to_word_index`: index of the word a character index is in. -/
def char_to_word_index (s : PySpan μ) (ci : Int) : Option Int :=
  charToWordGo ci 0 s.context.char_offsets

/-- Method `word_to_char_index`: `self.context.char_offsets[wi]`, with
Python list-indexing semantics. -/
def word_to_char_index (s : PySpan μ) (wi : Int) : Option Int :=
  pyGet s.context.char_offsets wi

/-- Method `get_word_start`: `char_to_word_index(char_start)`. -/
def get_word_start (s : PySpan μ) : Option Int :=
  s.char_to_word_index s.char_start

/-- Method `get_word_end`: `char_to_word_index(char_end)`. -/
def get_word_end (s : PySpan μ) : Option Int :=
  s.char_to_word_index s.char_end

/-- Method `get_attrib_tokens`:
`self.context.__getattribute__(a)[self.get_word_start():self.get_word_end() + 1]`.
An unknown attribute raises (`none`). When `char_offsets` is empty both word
indices are `None` and `self.get_word_end() + 1` raises a `TypeError`
(`none`); the word indices are `None` only simultaneously, so the
`some`/`none` mixed cases are unreachable. -/
def get_attrib_tokens (s : PySpan μ) (a : String) : Option AttrSeq :=
  (s.context.getAttr a).bind fun seq =>
    match s.get_word_start, s.get_word_end with
    | some ws, some we => some (seq.slice ws (we + 1))
    | _, _ => none

/-- Python `sep.join(xs)` over a list of strings. -/
def sepJoin (sep : String) : List String → String
  | [] => ""
  | [x] => x
  | x :: y :: rest => x ++ sep ++ sepJoin sep (y :: rest)

/-- Python `sep.join` applied to an attribute sequence: joining string
tokens succeeds; joining any empty iterable returns `""` without inspecting
element types; joining a nonempty int sequence raises `TypeError`
(`none`). -/
def joinPy (sep : String) : AttrSeq → Option String
  | .strSeq xs => some (sepJoin sep xs)
  | .intSeq [] => some ""
  | .intSeq (_ :: _) => none

/-- Method `get_attrib_span`: for the reserved name `words` the raw
substring `self.context.text[self.char_start:self.char_end + 1]`; otherwise
`sep.join(self.get_attrib_tokens(a))`, which raises `TypeError` on a
nonempty non-string token sequence. -/
def get_attrib_span (s : PySpan μ) (a : String) (sep : String) : Option String :=
  if a = "words" then
    some (String.mk (pySlice s.context.text s.char_start (s.char_end + 1)))
  else
    (s.get_attrib_tokens a).bind (joinPy sep)

/-- Method `get_span`: `get_attrib_span('words', sep)`. -/
def get_span (s : PySpan μ) (sep : String) : Option String :=
  s.get_attrib_span "words" sep

/-- Dispatch of `_get_instance(char_start=..., char_end=..., context=...)`:
`TemporarySpan._get_instance` builds a `TemporarySpan`, the override
`Span._get_instance` builds a `Span`; either way `TemporarySpan.__init__`
runs with `meta` left at its `None` default and no identity assigned. -/
def _get_instance (cls : SpanClass) (context : Sentence)
    (char_start char_end : Int) : PySpan μ :=
  { cls := cls, context := context, char_start := char_start,
    char_end := char_end, meta := none, id := none }

/-- A Python `slice(start, stop, step)` object; `none` is `None`. -/
structure PySliceObj : Type where
  start : Option Int
  stop : Option Int
  step : Option Int
deriving DecidableEq, Repr

/-- The key passed to `__getitem__`: either a `slice` object, or anything
else (an integer index, a tuple, ...), which the method rejects. -/
inductive GetItemKey : Type
  | sliceKey (sl : PySliceObj)
  | otherKey
deriving DecidableEq, Repr

/-- Method `__getitem__`: for a `slice` object (its `step` is never read),
derive the new character range and instantiate via `_get_instance`; any
other key raises `NotImplementedError` (`Except.error ()`). -/
def getitem (s : PySpan μ) : GetItemKey → Except Unit (PySpan μ)
  | .sliceKey sl =>
    let char_start :=
      match sl.start with
      | none => s.char_start
      | some a => s.char_start + a
    let char_end :=
      match sl.stop with
      | none => s.char_end
      | some v => if 0 ≤ v then s.char_start + v - 1 else s.char_end + v
    .ok (_get_instance s.cls s.context char_start char_end)
  | .otherKey => .error ()

/-- Method `promote`:
`Span(context=self.context, char_start=self.char_start, char_end=self.char_end)`.
`TemporarySpan.__init__` runs with `meta` left at its `None` default, and no
identity is assigned inside the call. -/
def promote (s : PySpan μ) : PySpan μ :=
  { cls := SpanClass.span, context := s.context, char_start := s.char_start,
    char_end := s.char_end, meta := none, id := none }

/-- A right operand of `==`/`!=` as the method body sees it: each of the
three attributes it reads is either absent (`none`, so that the read raises
`AttributeError`) or present with a value. -/
structure OtherObj : Type where
  context : Option Sentence
  char_start : Option Int
  char_end : Option Int
deriving DecidableEq, Repr

/-- Method `__eq__`: the short-circuit `and` chain
`self.context == other.context and self.char_start == other.char_start and
self.char_end == other.char_end` inside `try`, with `AttributeError`
(reading a missing attribute) caught and turned into `False`. The context
comparison is `Context.__eq__`, i.e. reference identity. -/
def spanEq (s : PySpan μ) (o : OtherObj) : Bool :=
  match o.context with
  | none => false
  | some c =>
    if ¬ s.context.isSame c then false
    else
      match o.char_start with
      | none => false
      | some cs =>
        if s.char_start ≠ cs then false
        else
          match o.char_end with
          | none => false
          | some ce => s.char_end = ce

/-- Method `__ne__`: the short-circuit `or` chain inside `try`, with
`AttributeError` caught and turned into `True`. -/
def spanNe (s : PySpan μ) (o : OtherObj) : Bool :=
  match o.context with
  | none => true
  | some c =>
    if ¬ s.context.isSame c then true
    else
      match o.char_start with
      | none => true
      | some cs =>
        if s.char_start ≠ cs then true
        else
          match o.char_end with
          | none => true
          | some ce => s.char_end ≠ ce

/-- View of a span as a right operand of `==`: a span object has all three
attributes. -/
def asObj (s : PySpan μ) : OtherObj :=
  { context := some s.context, char_start := some s.char_start,
    char_end := some s.char_end }

end PySpan

/-- Number of offsets not exceeding `ci`; for a strictly increasing offsets
list, `numLe ci offsets - 1` is the index of the word owning `ci`. -/
def numLe (ci : Int) (offsets : List Int) : Nat :=
  offsets.countP (fun co => co ≤ ci)

/-- The value `char_to_word_index` is specified to return on a nonempty
strictly increasing offsets list: `-1` when `ci` precedes every offset,
otherwise the largest index whose offset is at most `ci`. -/
def ownerIndex (ci : Int) (offsets : List Int) : Int :=
  (numLe ci offsets : Int) - 1

theorem numLe_cons (ci a : Int) (l : List Int) :
    numLe ci (a :: l) = numLe ci l + (if a ≤ ci then 1 else 0) := by
  simp [numLe, List.countP_cons]

theorem numLe_eq_zero (ci : Int) (l : List Int) (h : ∀ b ∈ l, ci < b) :
    numLe ci l = 0 := by
  simp only [numLe, List.countP_eq_zero, decide_eq_true_eq]
  intro b hb
  exact not_le.mpr (h b hb)

theorem numLe_le_length (ci : Int) (l : List Int) : numLe ci l ≤ l.length :=
  List.countP_le_length _

/-- On a strictly increasing list the entries not exceeding `ci` form a
prefix, so position `j` carries such an entry exactly when `j < numLe ci l`. -/
theorem get_le_iff_lt_numLe (ci : Int) (l : List Int)
    (hp : l.Pairwise (· < ·)) :
    ∀ j, ∀ hj : j < l.length, (l.get ⟨j, hj⟩ ≤ ci ↔ j < numLe ci l) := by
  induction l with
  | nil => intro j hj; simp at hj
  | cons a l ih =>
    rw [List.pairwise_cons] at hp
    intro j hj
    by_cases ha : a ≤ ci
    · have hcnt : numLe ci (a :: l) = numLe ci l + 1 := by
        rw [numLe_cons, if_pos ha]
      cases j with
      | zero => simpa [hcnt] using ha
      | succ j' =>
        have hj' : j' < l.length := by simpa using hj
        have hstep := ih hp.2 j' hj'
        simpa [hcnt, Nat.succ_lt_succ_iff] using hstep
    · have hall : ∀ b ∈ l, ci < b := fun b hb =>
        (not_le.mp ha).trans (hp.1 b hb)
      have h0 : numLe ci l = 0 := numLe_eq_zero ci l hall
      have hcnt : numLe ci (a :: l) = 0 := by
        rw [numLe_cons, if_neg ha, h0]
      cases j with
      | zero => simpa [hcnt] using ha
      | succ j' =>
        have hj' : j' < l.length := by simpa using hj
        have hmem : l.get ⟨j', hj'⟩ ∈ l := l.get_mem _ _
        simpa [hcnt] using not_le.mpr (hall _ hmem)

/-- The scan loop of `char_to_word_index`, started at accumulator `i0` on a
nonempty strictly increasing offsets list, returns `i0 + ownerIndex`. -/
theorem charToWordGo_eq (ci : Int) :
    ∀ l : List Int, l.Pairwise (· < ·) → l ≠ [] →
      ∀ i0 : Int, charToWordGo ci i0 l = some (i0 + ownerIndex ci l) := by
  intro l
  induction l with
  | nil => intro _ h; exact absurd rfl h
  | cons a l ih =>
    intro hp _ i0
    rw [List.pairwise_cons] at hp
    rcases lt_trichotomy ci a with hlt | heq | hgt
    · have h0 : numLe ci l = 0 :=
        numLe_eq_zero ci l (fun b hb => hlt.trans (hp.1 b hb))
      have hcnt : numLe ci (a :: l) = 0 := by
        rw [numLe_cons, if_neg (not_le.mpr hlt), h0]
      simp only [charToWordGo, if_neg (ne_of_lt hlt), if_pos hlt,
        ownerIndex, hcnt, Option.some.injEq]
      omega
    · have h0 : numLe ci l = 0 :=
        numLe_eq_zero ci l (fun b hb => heq ▸ hp.1 b hb)
      have hcnt : numLe ci (a :: l) = 1 := by
        rw [numLe_cons, if_pos (le_of_eq heq.symm), h0]
      simp only [charToWordGo, if_pos heq, ownerIndex, hcnt,
        Option.some.injEq]
      omega
    · have hne : ci ≠ a := (ne_of_lt hgt).symm
      have hnlt : ¬ ci < a := not_lt.mpr (le_of_lt hgt)
      cases l with
      | nil =>
        have hcnt : numLe ci [a] = 1 := by
          rw [numLe_cons, if_pos (le_of_lt hgt)]; rfl
        simp only [charToWordGo, if_neg hne, if_neg hnlt, ownerIndex, hcnt,
          Option.some.injEq]
        omega
      | cons b m =>
        have hrec := ih hp.2 (List.cons_ne_nil b m) (i0 + 1)
        have hcnt : numLe ci (a :: b :: m) = numLe ci (b :: m) + 1 := by
          rw [numLe_cons, if_pos (le_of_lt hgt)]
        have hbody : charToWordGo ci i0 (a :: b :: m) =
            charToWordGo ci (i0 + 1) (b :: m) := by
          simp only [charToWordGo, if_neg hne, if_neg hnlt]
        rw [hbody, hrec]
        simp only [ownerIndex, hcnt, Option.some.injEq]
        push_cast
        omega

/-- Method-level form: on a span whose unit has nonempty strictly increasing
offsets, `char_to_word_index` returns `ownerIndex`. -/
theorem char_to_word_index_eq {μ : Type} (s : PySpan μ)
    (hp : s.context.char_offsets.Pairwise (· < ·))
    (hne : s.context.char_offsets ≠ []) (ci : Int) :
    s.char_to_word_index ci = some (ownerIndex ci s.context.char_offsets) := by
  have h := charToWordGo_eq ci s.context.char_offsets hp hne 0
  simpa [PySpan.char_to_word_index] using h

/-- Example unit from the specification: text `"The cat sat."`, tokens
`["The","cat","sat","."]`, offsets `[0,4,8,11]`. -/
def exSentence : Sentence :=
  { objId := 1
    text := "The cat sat.".data
    words := ["The", "cat", "sat", "."]
    char_offsets := [0, 4, 8, 11]
    lemmas := ["the", "cat", "sat", "."]
    poses := ["DT", "NN", "VBD", "."]
    dep_parents := [2, 3, 0, 3]
    dep_labels := ["det", "nsubj", "root", "punct"] }

/-- Example transient span over `exSentence` covering characters 4..10
(the text `"cat sat"`). -/
def exSpan : PySpan Nat :=
  { cls := SpanClass.temporary, context := exSentence, char_start := 4,
    char_end := 10, meta := none, id := none }

/-- Example transient span carrying a metadata payload. -/
def exMetaSpan : PySpan Nat :=
  { cls := SpanClass.temporary, context := exSentence, char_start := 4,
    char_end := 10, meta := some 5, id := none }

/-- Example persisted span (class `Span`, identity assigned). -/
def exPersisted : PySpan Nat :=
  { cls := SpanClass.span, context := exSentence, char_start := 4,
    char_end := 10, meta := none, id := some 7 }

/-- Example span over a unit whose `char_offsets` list is empty. -/
def exEmptySpan : PySpan Nat :=
  { cls := SpanClass.temporary
    context :=
      { objId := 2, text := [], words := [], char_offsets := [],
        lemmas := [], poses := [], dep_parents := [], dep_labels := [] }
    char_start := 0, char_end := 0, meta := none, id := none }

/-- C1: on a span whose unit has `n >= 1` tokens with strictly increasing
`char_offsets`, `char_to_word_index ci` returns `ownerIndex ci char_offsets`;
that value is `-1` exactly when `ci` precedes `char_offsets[0]`, and
otherwise equals `k` exactly when `k` is the largest index whose offset is
at most `ci`. -/
theorem c1_char_to_word_index_owner {μ : Type} (s : PySpan μ)
    (hp : s.context.char_offsets.Pairwise (· < ·))
    (h0 : 0 < s.context.char_offsets.length) (ci : Int) :
    s.char_to_word_index ci = some (ownerIndex ci s.context.char_offsets) ∧
    (ci < s.context.char_offsets.get ⟨0, h0⟩ ↔
      ownerIndex ci s.context.char_offsets = -1) ∧
    ∀ k : Nat, ∀ hk : k < s.context.char_offsets.length,
      (ownerIndex ci s.context.char_offsets = (k : Int) ↔
        (s.context.char_offsets.get ⟨k, hk⟩ ≤ ci ∧
          ∀ m : Nat, ∀ hm : m < s.context.char_offsets.length,
            s.context.char_offsets.get ⟨m, hm⟩ ≤ ci → m ≤ k)) := by
  have hne : s.context.char_offsets ≠ [] := List.ne_nil_of_length_pos h0
  refine ⟨char_to_word_index_eq s hp hne ci, ?_, ?_⟩
  · have hiff0 := get_le_iff_lt_numLe ci s.context.char_offsets hp 0 h0
    constructor
    · intro h
      have hc : ¬ 0 < numLe ci s.context.char_offsets :=
        fun hpos => absurd (hiff0.mpr hpos) (not_le.mpr h)
      have hc0 : numLe ci s.context.char_offsets = 0 :=
        Nat.eq_zero_of_not_pos hc
      simp [ownerIndex, hc0]
    · intro h
      by_contra hnot
      have hle : s.context.char_offsets.get ⟨0, h0⟩ ≤ ci := not_lt.mp hnot
      have hpos := hiff0.mp hle
      simp only [ownerIndex] at h
      omega
  · intro k hk
    constructor
    · intro h
      have hc : numLe ci s.context.char_offsets = k + 1 := by
        simp only [ownerIndex] at h
        omega
      have hklt : k < numLe ci s.context.char_offsets := by omega
      refine ⟨(get_le_iff_lt_numLe ci _ hp k hk).mpr hklt, ?_⟩
      intro m hm hmle
      have hmlt := (get_le_iff_lt_numLe ci _ hp m hm).mp hmle
      omega
    · rintro ⟨hkle, hmax⟩
      have hklt : k < numLe ci s.context.char_offsets :=
        (get_le_iff_lt_numLe ci _ hp k hk).mp hkle
      have hlen := numLe_le_length ci s.context.char_offsets
      have hub : numLe ci s.context.char_offsets ≤ k + 1 := by
        by_contra hnot
        have hk1 : k + 1 < numLe ci s.context.char_offsets := by omega
        have hk1len : k + 1 < s.context.char_offsets.length := by omega
        have hk1le : s.context.char_offsets.get ⟨k + 1, hk1len⟩ ≤ ci :=
          (get_le_iff_lt_numLe ci _ hp (k + 1) hk1len).mpr hk1
        have := hmax (k + 1) hk1len hk1le
        omega
      simp only [ownerIndex]
      omega

/-- Witness for C1 at the example span and `ci = 9` (a character inside the
token `"sat"`, whose index is 2). -/
theorem c1_witness :
    exSpan.char_to_word_index 9 =
      some (ownerIndex 9 exSpan.context.char_offsets) ∧
    ownerIndex 9 exSpan.context.char_offsets = 2 :=
  ⟨(c1_char_to_word_index_owner exSpan (by decide) (by decide) 9).1,
    by decide⟩

open PySpan in
/-- C9: on a span whose unit has an empty `char_offsets` sequence, the loop
variable of `char_to_word_index` is never assigned, so the method returns
`None` for every character index — neither the `-1` sentinel nor a valid
index — and `get_word_start` / `get_word_end` therefore also return `None`. -/
theorem c9_empty_offsets {μ : Type} (s : PySpan μ)
    (h : s.context.char_offsets = []) :
    (∀ ci : Int, s.char_to_word_index ci = none) ∧
    s.get_word_start = none ∧ s.get_word_end = none := by
  refine ⟨fun ci => ?_, ?_, ?_⟩ <;>
    simp [PySpan.char_to_word_index, PySpan.get_word_start,
      PySpan.get_word_end, h, charToWordGo]

/-- Witness for C9 at the concrete empty-offsets span. -/
theorem c9_witness :
    exEmptySpan.char_to_word_index 3 = none ∧
    exEmptySpan.get_word_start = none ∧
    exEmptySpan.get_word_end = none :=
  ⟨(c9_empty_offsets exEmptySpan rfl).1 3,
    (c9_empty_offsets exEmptySpan rfl).2.1,
    (c9_empty_offsets exEmptySpan rfl).2.2⟩

/-- Monotonicity of `numLe` in the character index. -/
theorem numLe_mono {ci cj : Int} (h : ci ≤ cj) (l : List Int) :
    numLe ci l ≤ numLe cj l := by
  unfold numLe
  apply List.countP_mono_left
  intro a _ ha
  simp only [decide_eq_true_eq] at ha ⊢
  exact le_trans ha h

/-- C5: on a unit with strictly increasing offsets,
`char_to_word_index (word_to_char_index wi) = wi` for every in-range token
index `wi`. -/
theorem c5_roundtrip {μ : Type} (s : PySpan μ)
    (hp : s.context.char_offsets.Pairwise (· < ·))
    (wi : Nat) (hwi : wi < s.context.char_offsets.length) :
    ∃ ci : Int,
      s.word_to_char_index (wi : Int) = some ci ∧
      s.char_to_word_index ci = some (wi : Int) := by
  have hget : s.context.char_offsets.get? wi =
      some (s.context.char_offsets.get ⟨wi, hwi⟩) := List.get?_eq_get hwi
  refine ⟨s.context.char_offsets.get ⟨wi, hwi⟩, ?_, ?_⟩
  · unfold PySpan.word_to_char_index pyGet
    rw [if_pos (Int.natCast_nonneg wi), Int.toNat_natCast]
    exact hget
  · have hne : s.context.char_offsets ≠ [] := by
      intro hnil
      rw [hnil] at hwi
      simp at hwi
    set ci := s.context.char_offsets.get ⟨wi, hwi⟩ with hci
    rw [char_to_word_index_eq s hp hne ci]
    have hklt : wi < numLe ci s.context.char_offsets :=
      (get_le_iff_lt_numLe ci _ hp wi hwi).mp (le_refl ci)
    have hub : numLe ci s.context.char_offsets ≤ wi + 1 := by
      by_contra hnot
      have hlen := numLe_le_length ci s.context.char_offsets
      have hk1len : wi + 1 < s.context.char_offsets.length := by omega
      have hk1le : s.context.char_offsets.get ⟨wi + 1, hk1len⟩ ≤ ci :=
        (get_le_iff_lt_numLe ci _ hp (wi + 1) hk1len).mpr (by omega)
      have hinc : ci < s.context.char_offsets.get ⟨wi + 1, hk1len⟩ :=
        List.pairwise_iff_get.mp hp ⟨wi, hwi⟩ ⟨wi + 1, hk1len⟩
          (Fin.mk_lt_mk.mpr (Nat.lt_succ_self wi))
      omega
    have howner : ownerIndex ci s.context.char_offsets = (wi : Int) := by
      unfold ownerIndex
      omega
    rw [howner]

/-- Witness for C5 at the example span and token index 2. -/
theorem c5_witness :
    ∃ ci : Int,
      exSpan.word_to_char_index ((2 : Nat) : Int) = some ci ∧
      exSpan.char_to_word_index ci = some ((2 : Nat) : Int) :=
  c5_roundtrip exSpan (by decide) 2 (by decide)

/-- Counterexample to C6: a negative in-range token index does not fail;
Python list indexing wraps around, so `wi = -1` returns the last offset. -/
theorem c6_counterexample : exSpan.word_to_char_index (-1) = some 11 := by
  decide

/-- C6 (amended): `word_to_char_index wi` returns `char_offsets[wi]` for
`0 <= wi < n`; for `-n <= wi < 0` it wraps around Python-style, agreeing
with `word_to_char_index (wi + n)`; it fails (raises, modelled `none`) only
for `wi >= n` or `wi < -n`. -/
theorem c6_word_to_char_index_amended {μ : Type} (s : PySpan μ) :
    (∀ k : Nat, ∀ hk : k < s.context.char_offsets.length,
      s.word_to_char_index (k : Int) =
        some (s.context.char_offsets.get ⟨k, hk⟩)) ∧
    (∀ wi : Int, -(s.context.char_offsets.length : Int) ≤ wi → wi < 0 →
      s.word_to_char_index wi =
        s.word_to_char_index (wi + s.context.char_offsets.length)) ∧
    (∀ wi : Int, ((s.context.char_offsets.length : Int) ≤ wi ∨
        wi < -(s.context.char_offsets.length : Int)) →
      s.word_to_char_index wi = none) := by
  refine ⟨?_, ?_, ?_⟩
  · intro k hk
    unfold PySpan.word_to_char_index pyGet
    rw [if_pos (Int.natCast_nonneg k), Int.toNat_natCast]
    exact List.get?_eq_get hk
  · intro wi hlo hhi
    unfold PySpan.word_to_char_index pyGet
    rw [if_neg (not_le.mpr hhi), if_neg (by omega), if_pos (by omega)]
    congr 1
    omega
  · intro wi hout
    unfold PySpan.word_to_char_index pyGet
    rcases hout with hge | hlt
    · rw [if_pos (by omega)]
      refine List.get?_eq_none.mpr ?_
      omega
    · rw [if_neg (by omega), if_pos (by omega)]

/-- Value equality between two spans (`TemporarySpan.__eq__` with a span as
right operand) holds exactly on the triple (unit reference, char_start,
char_end). -/
theorem spanEq_asObj_iff {μ ν : Type} (s : PySpan μ) (t : PySpan ν) :
    PySpan.spanEq s t.asObj = true ↔
      (s.context.objId = t.context.objId ∧
        s.char_start = t.char_start ∧ s.char_end = t.char_end) := by
  by_cases h1 : s.context.objId = t.context.objId <;>
    by_cases h2 : s.char_start = t.char_start <;>
      by_cases h3 : s.char_end = t.char_end <;>
        simp [PySpan.spanEq, PySpan.asObj, Sentence.isSame, h1, h2, h3]

open PySpan in
/-- C2: slicing a span with a `slice(start, stop, step)` key succeeds and
yields a span over the same unit with `char_start` shifted by `start` (kept
when `start` is absent) and `char_end` equal to `char_end` when `stop` is
absent, `char_start + stop - 1` when `stop >= 0`, and `char_end + stop`
when `stop < 0`; in particular the full slice is value-equal to the
original and `stop = -1` drops exactly the last character. -/
theorem c2_slice_arithmetic {μ : Type} (s : PySpan μ) (sl : PySliceObj) :
    ∃ r : PySpan μ, s.getitem (GetItemKey.sliceKey sl) = Except.ok r ∧
      r.context = s.context ∧
      r.char_start = (match sl.start with
        | none => s.char_start
        | some a => s.char_start + a) ∧
      r.char_end = (match sl.stop with
        | none => s.char_end
        | some v => if 0 ≤ v then s.char_start + v - 1 else s.char_end + v) ∧
      (sl.start = none → sl.stop = none → spanEq r s.asObj = true) ∧
      (sl.start = none → sl.stop = some (-1) →
        r.char_start = s.char_start ∧ r.char_end = s.char_end - 1) := by
  refine ⟨_, rfl, rfl, rfl, rfl, ?_, ?_⟩
  · rintro h1 h2
    rw [h1, h2]
    exact (spanEq_asObj_iff _ s).mpr ⟨rfl, rfl, rfl⟩
  · rintro h1 h2
    rw [h1, h2]
    refine ⟨rfl, ?_⟩
    show (if (0 : Int) ≤ -1 then s.char_start + -1 - 1 else s.char_end + -1) =
      s.char_end - 1
    rw [if_neg (by omega)]
    omega

open PySpan in
/-- Witness for C2: slicing the example span with `stop = -1` keeps
`char_start = 4` and moves `char_end` from 10 to 9. -/
theorem c2_witness :
    ∃ r : PySpan Nat,
      exSpan.getitem (GetItemKey.sliceKey ⟨none, some (-1), none⟩) =
        Except.ok r ∧
      r.context = exSpan.context ∧ r.char_start = 4 ∧ r.char_end = 9 := by
  obtain ⟨r, h1, h2, h3, h4, h5, h6⟩ :=
    c2_slice_arithmetic exSpan ⟨none, some (-1), none⟩
  obtain ⟨h7, h8⟩ := h6 rfl rfl
  refine ⟨r, h1, h2, ?_, ?_⟩
  · rw [h7]; rfl
  · rw [h8]; rfl

open PySpan in
/-- Counterexample to C7: a stepped slice is still a `slice` object, so
`__getitem__` does not fail on it; the step is silently ignored and a new
span is returned. -/
theorem c7_counterexample :
    exSpan.getitem (GetItemKey.sliceKey ⟨some 0, some 2, some 2⟩) =
      Except.ok
        { cls := SpanClass.temporary, context := exSentence, char_start := 4,
          char_end := 5, meta := none, id := none } := by
  rfl

open PySpan in
/-- C7 (amended): `__getitem__` raises `NotImplementedError` exactly for
non-slice keys; every `slice` key succeeds, and the result does not depend
on the slice's step, which the method never reads. -/
theorem c7_getitem_amended {μ : Type} (s : PySpan μ) :
    (∀ sl : PySliceObj, ∀ st : Option Int,
      s.getitem (GetItemKey.sliceKey sl) =
        s.getitem (GetItemKey.sliceKey ⟨sl.start, sl.stop, st⟩)) ∧
    (∀ sl : PySliceObj, ∃ r : PySpan μ,
      s.getitem (GetItemKey.sliceKey sl) = Except.ok r) ∧
    s.getitem GetItemKey.otherKey = Except.error () := by
  exact ⟨fun sl st => rfl, fun sl => ⟨_, rfl⟩, rfl⟩

open PySpan in
/-- Counterexample to C8: slicing a persisted span (class `Span`) builds the
result through the override `Span._get_instance`, so the result is again of
class `Span`, not a `TemporarySpan`. -/
theorem c8_counterexample :
    (exPersisted.getitem (GetItemKey.sliceKey ⟨none, none, none⟩)).map
        PySpan.cls =
      Except.ok SpanClass.span := by
  rfl

open PySpan in
/-- C8 (amended): the span produced by slicing references the same unit and
carries no metadata and no identity, but it is an instance of the same
class as the span being sliced: slicing a `TemporarySpan` yields a
`TemporarySpan` and slicing a persisted `Span` yields a `Span` (with no
identity assigned). -/
theorem c8_slice_class {μ : Type} (s : PySpan μ) (sl : PySliceObj) :
    ∃ r : PySpan μ, s.getitem (GetItemKey.sliceKey sl) = Except.ok r ∧
      r.cls = s.cls ∧ r.context = s.context ∧ r.meta = none ∧ r.id = none :=
  ⟨_, rfl, rfl, rfl, rfl, rfl⟩

open PySpan in
/-- Counterexample to C3: `promote` passes only `context`, `char_start` and
`char_end` to the `Span` constructor, so the metadata of the original is
dropped, not copied. -/
theorem c3_counterexample :
    exMetaSpan.meta = some 5 ∧ exMetaSpan.promote.meta ≠ some 5 := by
  decide

open PySpan in
/-- C3 (amended): `promote` returns a persisted-form span whose unit,
`char_start` and `char_end` equal those of the original, with no identity
assigned; its metadata is reset to `None` (not copied). Consequently two
promotions of value-equal spans yield persisted spans with equal content
fields (unit reference, endpoints, metadata, identity). -/
theorem c3_promote_amended {μ : Type} (s : PySpan μ) :
    s.promote.cls = SpanClass.span ∧
    s.promote.context = s.context ∧
    s.promote.char_start = s.char_start ∧
    s.promote.char_end = s.char_end ∧
    s.promote.meta = none ∧
    s.promote.id = none ∧
    (∀ t : PySpan μ, spanEq s t.asObj = true →
      s.promote.context.objId = t.promote.context.objId ∧
      s.promote.char_start = t.promote.char_start ∧
      s.promote.char_end = t.promote.char_end ∧
      s.promote.meta = t.promote.meta ∧
      s.promote.id = t.promote.id) := by
  refine ⟨rfl, rfl, rfl, rfl, rfl, rfl, ?_⟩
  intro t ht
  obtain ⟨h1, h2, h3⟩ := (spanEq_asObj_iff s t).mp ht
  exact ⟨h1, h2, h3, rfl, rfl⟩

open PySpan in
/-- Witness for C3 (amended): `exSpan` and `exMetaSpan` are value-equal but
carry different metadata; their promotions agree on every content field. -/
theorem c3_witness :
    exSpan.promote.meta = exMetaSpan.promote.meta ∧
    exSpan.promote.char_start = exMetaSpan.promote.char_start ∧
    exSpan.promote.char_end = exMetaSpan.promote.char_end ∧
    exSpan.promote.context.objId = exMetaSpan.promote.context.objId ∧
    exSpan.promote.id = exMetaSpan.promote.id := by
  have h := (c3_promote_amended exSpan).2.2.2.2.2.2 exMetaSpan (by decide)
  exact ⟨h.2.2.2.1, h.2.1, h.2.2.1, h.1, h.2.2.2.2⟩

open PySpan in
/-- Behaviour of `__eq__` and `__ne__` against an operand carrying all three
attributes: value (in)equality on the triple (unit reference, char_start,
char_end). -/
theorem spanEq_spanNe_all_present {μ : Type} (s : PySpan μ) (c : Sentence)
    (cs ce : Int) :
    (spanEq s ⟨some c, some cs, some ce⟩ = true ↔
      (s.context.objId = c.objId ∧ s.char_start = cs ∧ s.char_end = ce)) ∧
    (spanNe s ⟨some c, some cs, some ce⟩ = true ↔
      ¬ (s.context.objId = c.objId ∧ s.char_start = cs ∧ s.char_end = ce)) := by
  by_cases h1 : s.context.objId = c.objId <;>
    by_cases h2 : s.char_start = cs <;>
      by_cases h3 : s.char_end = ce <;>
        simp [PySpan.spanEq, PySpan.spanNe, Sentence.isSame, h1, h2, h3]

open PySpan in
/-- C10: `__eq__`/`__ne__` are total over arbitrary right operands: when the
operand lacks any of the `context`/`char_start`/`char_end` attributes, the
`AttributeError` is caught and `==` returns `False`, `!=` returns `True`;
when all three are present, `==` holds exactly when the unit references and
both endpoints agree, and `!=` is its negation. -/
theorem c10_eq_total {μ : Type} (s : PySpan μ) (o : OtherObj) :
    ((o.context = none ∨ o.char_start = none ∨ o.char_end = none) →
      spanEq s o = false ∧ spanNe s o = true) ∧
    (∀ c : Sentence, ∀ cs ce : Int, o = ⟨some c, some cs, some ce⟩ →
      ((spanEq s o = true ↔
          (s.context.objId = c.objId ∧ s.char_start = cs ∧
            s.char_end = ce)) ∧
        (spanNe s o = true ↔
          ¬ (s.context.objId = c.objId ∧ s.char_start = cs ∧
            s.char_end = ce)))) := by
  obtain ⟨oc, ocs, oce⟩ := o
  constructor
  · intro h
    rcases oc with _ | c
    · exact ⟨rfl, rfl⟩
    · rcases ocs with _ | cs
      · by_cases h1 : s.context.objId = c.objId <;>
          simp [PySpan.spanEq, PySpan.spanNe, Sentence.isSame, h1]
      · rcases oce with _ | ce
        · by_cases h1 : s.context.objId = c.objId <;>
            by_cases h2 : s.char_start = cs <;>
              simp [PySpan.spanEq, PySpan.spanNe, Sentence.isSame, h1, h2]
        · rcases h with h | h | h <;> simp at h
  · intro c cs ce h
    injection h with hc hcs hce
    rw [hc, hcs, hce]
    exact spanEq_spanNe_all_present s c cs ce

open PySpan in
/-- Witness for C10 at the example span: an attribute-less operand compares
unequal without an exception, and a fully attributed operand compares by
value. -/
theorem c10_witness :
    (spanEq exSpan ⟨none, none, none⟩ = false ∧
      spanNe exSpan ⟨none, none, none⟩ = true) ∧
    (spanEq exSpan ⟨some exSentence, some 4, some 10⟩ = true ↔
      (exSpan.context.objId = exSentence.objId ∧
        exSpan.char_start = 4 ∧ exSpan.char_end = 10)) :=
  ⟨(c10_eq_total exSpan ⟨none, none, none⟩).1 (Or.inl rfl),
    ((c10_eq_total exSpan ⟨some exSentence, some 4, some 10⟩).2
      exSentence 4 10 rfl).1⟩

/-- With in-range bounds, a Python slice is an ordinary drop/take. -/
theorem pySlice_eq_drop_take {α : Type} (l : List α) (a b : Int)
    (ha : 0 ≤ a) (hab : a ≤ b) (hb : b ≤ (l.length : Int)) :
    pySlice l a b = (l.drop a.toNat).take (b.toNat - a.toNat) := by
  have hbn : b.toNat ≤ l.length := Int.toNat_le.mpr hb
  have han : a.toNat ≤ l.length := le_trans (Int.toNat_le_toNat hab) hbn
  unfold pySlice pyBound
  rw [if_neg (not_lt.mpr ha), if_neg (not_lt.mpr (ha.trans hab)),
    min_eq_left han, min_eq_left hbn]

open PySpan in
/-- Under the data-model invariants, both word indices of a span are
defined and nonnegative, with the end index inside the offsets list. -/
theorem get_word_range {μ : Type} (s : PySpan μ)
    (hp : s.context.char_offsets.Pairwise (· < ·))
    (h0 : 0 < s.context.char_offsets.length)
    (hfirst : s.context.char_offsets.get ⟨0, h0⟩ ≤ s.char_start)
    (hse : s.char_start ≤ s.char_end) :
    ∃ ws we : Nat,
      s.get_word_start = some ((ws : Nat) : Int) ∧
      s.get_word_end = some ((we : Nat) : Int) ∧
      ws ≤ we ∧ we + 1 ≤ s.context.char_offsets.length := by
  have hne : s.context.char_offsets ≠ [] := List.ne_nil_of_length_pos h0
  have hfe : s.context.char_offsets.get ⟨0, h0⟩ ≤ s.char_end :=
    le_trans hfirst hse
  have hcws : 0 < numLe s.char_start s.context.char_offsets :=
    (get_le_iff_lt_numLe _ _ hp 0 h0).mp hfirst
  have hcwe : 0 < numLe s.char_end s.context.char_offsets :=
    (get_le_iff_lt_numLe _ _ hp 0 h0).mp hfe
  have hmono : numLe s.char_start s.context.char_offsets ≤
      numLe s.char_end s.context.char_offsets := numLe_mono hse _
  have hwele : numLe s.char_end s.context.char_offsets ≤
      s.context.char_offsets.length := numLe_le_length _ _
  refine ⟨numLe s.char_start s.context.char_offsets - 1,
    numLe s.char_end s.context.char_offsets - 1, ?_, ?_, by omega, by omega⟩
  · unfold PySpan.get_word_start
    rw [char_to_word_index_eq s hp hne]
    congr 1
    unfold ownerIndex
    omega
  · unfold PySpan.get_word_end
    rw [char_to_word_index_eq s hp hne]
    congr 1
    unfold ownerIndex
    omega

open PySpan in
/-- Counterexample to C4: `dep_parents` is an attribute present in the
unit, yet `get_attrib_span` returns no joined string for it — the token
slice is a nonempty int sequence, so `sep.join` raises `TypeError`. -/
theorem c4_counterexample :
    exSpan.context.getAttr "dep_parents" =
      some (AttrSeq.intSeq exSentence.dep_parents) ∧
    exSpan.get_attrib_span "dep_parents" " " = none := by
  decide

open PySpan in
/-- C4 (amended): on a span satisfying the data-model invariants (strictly
increasing nonempty offsets, `char_offsets[0] <= char_start <= char_end <
len(text)`, `0 <= char_start`), `get_attrib_span` with the reserved name
`words` returns exactly the inclusive raw substring
`text[char_start .. char_end]` — in particular the whole of `text` when the
span covers the full unit; for every other *string-valued* attribute name
present in the unit (token-aligned) it returns the attribute sequence
sliced from `get_word_start()` to `get_word_end()` inclusive, joined with
the separator; but for the int-valued attribute `dep_parents` the join
raises `TypeError` and no string is returned. -/
theorem c4_get_attrib_span_amended {μ : Type} (s : PySpan μ) (sep : String)
    (hp : s.context.char_offsets.Pairwise (· < ·))
    (h0 : 0 < s.context.char_offsets.length)
    (hcs0 : 0 ≤ s.char_start)
    (hfirst : s.context.char_offsets.get ⟨0, h0⟩ ≤ s.char_start)
    (hse : s.char_start ≤ s.char_end)
    (hel : s.char_end < (s.context.text.length : Int)) :
    (s.get_attrib_span "words" sep =
      some (String.mk ((s.context.text.drop s.char_start.toNat).take
        (s.char_end.toNat + 1 - s.char_start.toNat)))) ∧
    (∀ a : String, a ≠ "words" → ∀ xs : List String,
      s.context.getAttr a = some (AttrSeq.strSeq xs) →
      xs.length = s.context.char_offsets.length →
      ∃ ws we : Nat,
        s.get_word_start = some ((ws : Nat) : Int) ∧
        s.get_word_end = some ((we : Nat) : Int) ∧
        ws ≤ we ∧ we < xs.length ∧
        s.get_attrib_span a sep =
          some (sepJoin sep ((xs.drop ws).take (we + 1 - ws)))) ∧
    (∀ a : String, a ≠ "words" → ∀ xs : List Int,
      s.context.getAttr a = some (AttrSeq.intSeq xs) →
      xs.length = s.context.char_offsets.length →
      s.get_attrib_span a sep = none) ∧
    (s.char_start = 0 → s.char_end = (s.context.text.length : Int) - 1 →
      s.get_attrib_span "words" sep = some (String.mk s.context.text)) := by
  have hwords : s.get_attrib_span "words" sep =
      some (String.mk ((s.context.text.drop s.char_start.toNat).take
        (s.char_end.toNat + 1 - s.char_start.toNat))) := by
    unfold PySpan.get_attrib_span
    rw [if_pos rfl]
    rw [pySlice_eq_drop_take _ _ _ hcs0 (by omega) (by omega)]
    have he : (s.char_end + 1).toNat = s.char_end.toNat + 1 := by omega
    rw [he]
  obtain ⟨ws, we, hws, hwe, hwswe, hwlen⟩ := get_word_range s hp h0 hfirst hse
  refine ⟨hwords, ?_, ?_, ?_⟩
  · intro a ha xs hseq hlen
    have hred : s.get_attrib_tokens a =
        match s.get_word_start, s.get_word_end with
        | some w1, some w2 => some ((AttrSeq.strSeq xs).slice w1 (w2 + 1))
        | _, _ => none := by
      unfold PySpan.get_attrib_tokens
      rw [hseq]
      rfl
    have htok : s.get_attrib_tokens a =
        some (AttrSeq.strSeq
          (pySlice xs ((ws : Nat) : Int) (((we : Nat) : Int) + 1))) := by
      rw [hred, hws, hwe]
      rfl
    have hbound : pySlice xs ((ws : Nat) : Int) (((we : Nat) : Int) + 1) =
        (xs.drop ws).take (we + 1 - ws) := by
      rw [pySlice_eq_drop_take xs _ _ (Int.natCast_nonneg _) (by omega)
        (by omega)]
      have e1 : ((ws : Nat) : Int).toNat = ws := by omega
      have e2 : (((we : Nat) : Int) + 1).toNat = we + 1 := by omega
      rw [e1, e2]
    refine ⟨ws, we, hws, hwe, hwswe, by omega, ?_⟩
    unfold PySpan.get_attrib_span
    rw [if_neg ha, htok, hbound]
    rfl
  · intro a ha xs hseq hlen
    have hred : s.get_attrib_tokens a =
        match s.get_word_start, s.get_word_end with
        | some w1, some w2 => some ((AttrSeq.intSeq xs).slice w1 (w2 + 1))
        | _, _ => none := by
      unfold PySpan.get_attrib_tokens
      rw [hseq]
      rfl
    have htok : s.get_attrib_tokens a =
        some (AttrSeq.intSeq
          (pySlice xs ((ws : Nat) : Int) (((we : Nat) : Int) + 1))) := by
      rw [hred, hws, hwe]
      rfl
    have hbound : pySlice xs ((ws : Nat) : Int) (((we : Nat) : Int) + 1) =
        (xs.drop ws).take (we + 1 - ws) := by
      rw [pySlice_eq_drop_take xs _ _ (Int.natCast_nonneg _) (by omega)
        (by omega)]
      have e1 : ((ws : Nat) : Int).toNat = ws := by omega
      have e2 : (((we : Nat) : Int) + 1).toNat = we + 1 := by omega
      rw [e1, e2]
    have hpos : 0 < ((xs.drop ws).take (we + 1 - ws)).length := by
      rw [List.length_take, List.length_drop]
      omega
    obtain ⟨y, t, hyt⟩ :=
      List.exists_cons_of_ne_nil (List.ne_nil_of_length_pos hpos)
    unfold PySpan.get_attrib_span
    rw [if_neg ha, htok, hbound, hyt]
    rfl
  · intro h1 h2
    have hlen1 : 0 < s.context.text.length := by omega
    rw [hwords, h1, h2]
    have e0 : ((0 : Int)).toNat = 0 := rfl
    rw [e0, List.drop_zero]
    have e1 : ((s.context.text.length : Int) - 1).toNat + 1 - 0 =
        s.context.text.length := by omega
    rw [e1, List.take_length]

open PySpan in
/-- Witness for C4 (amended) at the example span (characters 4..10 of
`"The cat sat."`): the raw-token path, the `lemmas` path, and the failing
`dep_parents` path. -/
theorem c4_witness :
    (exSpan.get_attrib_span "words" " " =
      some (String.mk ((exSpan.context.text.drop exSpan.char_start.toNat).take
        (exSpan.char_end.toNat + 1 - exSpan.char_start.toNat)))) ∧
    (∃ ws we : Nat,
      exSpan.get_word_start = some ((ws : Nat) : Int) ∧
      exSpan.get_word_end = some ((we : Nat) : Int) ∧
      ws ≤ we ∧ we < exSentence.lemmas.length ∧
      exSpan.get_attrib_span "lemmas" " " =
        some (sepJoin " " ((exSentence.lemmas.drop ws).take (we + 1 - ws)))) ∧
    exSpan.get_attrib_span "dep_parents" " " = none := by
  have h := c4_get_attrib_span_amended exSpan " " (by decide) (by decide)
    (by decide) (by decide) (by decide) (by decide)
  refine ⟨h.1, ?_, ?_⟩
  · obtain ⟨ws, we, h1, h2, h3, h4, h5⟩ :=
      h.2.1 "lemmas" (by decide) exSentence.lemmas (by decide) (by decide)
    exact ⟨ws, we, h1, h2, h3, h4, h5⟩
  · exact h.2.2.1 "dep_parents" (by decide) exSentence.dep_parents
      (by decide) (by decide)

open PySpan in
/-- Witness for C6 (amended) at the example span: in-range lookup, negative
wrap-around, and out-of-range failure. -/
theorem c6_witness :
    exSpan.word_to_char_index ((2 : Nat) : Int) =
      some (exSpan.context.char_offsets.get ⟨2, by decide⟩) ∧
    exSpan.word_to_char_index (-1) =
      exSpan.word_to_char_index (-1 + exSpan.context.char_offsets.length) ∧
    exSpan.word_to_char_index 4 = none :=
  ⟨(c6_word_to_char_index_amended exSpan).1 2 (by decide),
    (c6_word_to_char_index_amended exSpan).2.1 (-1) (by decide) (by decide),
    (c6_word_to_char_index_amended exSpan).2.2 4 (Or.inl (by decide))⟩
